import Mathlib

/-!
Verification of the ArUco camera-pose estimation core.

Shallow embedding over the reals of the pure pose pipeline:
marker detection results are resolved to single-marker camera poses
(marker-definition lookup, external PnP solve, extrinsic inversion,
frame-convention flip, Euler extraction) and fused by component-wise
averaging.  External collaborators (the PnP solver and the Rodrigues
axis-angle conversion) are passed in as function parameters; the clock
read used for the result timestamp is passed in as an explicit input.
-/

open Real

noncomputable section

-- ============================================================
-- Data model
-- ============================================================

/-- 2D point in image coordinates (pixels). -/
@[ext]
structure Point2D where
  x : ℝ
  y : ℝ

/-- 3D point in world coordinates (meters). -/
@[ext]
structure Point3D where
  x : ℝ
  y : ℝ
  z : ℝ

/-- Euler angles (degrees at the API boundary, radians for marker placement). -/
@[ext]
structure EulerAngles where
  x : ℝ
  y : ℝ
  z : ℝ

/-- Raw 3-vector as returned by the external PnP solver. -/
abbrev Vec3 := ℝ × ℝ × ℝ

/-- Marker face on the cube. -/
inductive MarkerFace
  | front
  | top
  | right
  | back
  | left

/-- Definition for a marker placed on the cube. -/
structure MarkerDefinition where
  id : ℕ
  face : MarkerFace
  normal : Point3D
  center : Point3D
  rotationToWorld : EulerAngles

/-- Single detected ArUco marker: id plus 4 ordered pixel corners
(top-left, top-right, bottom-right, bottom-left). -/
structure MarkerDetection where
  id : ℕ
  corners : Point2D × Point2D × Point2D × Point2D

/-- Estimated camera pose from one marker detection. -/
structure PoseEstimation where
  position : Point3D
  rotation : EulerAngles
  rvec : Vec3
  tvec : Vec3
  markerId : ℕ

/-- Aggregated pose result from zero or more markers. -/
structure PoseResult where
  poses : List PoseEstimation
  cameraPosition : Point3D
  cameraRotation : EulerAngles
  detectedMarkerIds : List ℕ
  timestamp : ℝ

instance : Add Point3D := ⟨fun a b => ⟨a.x + b.x, a.y + b.y, a.z + b.z⟩⟩

instance : Neg Point3D := ⟨fun a => ⟨-a.x, -a.y, -a.z⟩⟩

@[simp] theorem Point3D.add_x (a b : Point3D) : (a + b).x = a.x + b.x := rfl

@[simp] theorem Point3D.add_y (a b : Point3D) : (a + b).y = a.y + b.y := rfl

@[simp] theorem Point3D.add_z (a b : Point3D) : (a + b).z = a.z + b.z := rfl

@[simp] theorem Point3D.neg_x (a : Point3D) : (-a).x = -a.x := rfl

@[simp] theorem Point3D.neg_y (a : Point3D) : (-a).y = -a.y := rfl

@[simp] theorem Point3D.neg_z (a : Point3D) : (-a).z = -a.z := rfl

-- ============================================================
-- 3x3 matrices (row-major, mirroring the Float64Array layout)
-- ============================================================

/-- 3x3 row-major real matrix; field mij is row i, column j. -/
@[ext]
structure Mat3 where
  m00 : ℝ
  m01 : ℝ
  m02 : ℝ
  m10 : ℝ
  m11 : ℝ
  m12 : ℝ
  m20 : ℝ
  m21 : ℝ
  m22 : ℝ

/-- Matrix product of two 3x3 matrices. -/
def matMul (A B : Mat3) : Mat3 :=
  ⟨A.m00 * B.m00 + A.m01 * B.m10 + A.m02 * B.m20,
   A.m00 * B.m01 + A.m01 * B.m11 + A.m02 * B.m21,
   A.m00 * B.m02 + A.m01 * B.m12 + A.m02 * B.m22,
   A.m10 * B.m00 + A.m11 * B.m10 + A.m12 * B.m20,
   A.m10 * B.m01 + A.m11 * B.m11 + A.m12 * B.m21,
   A.m10 * B.m02 + A.m11 * B.m12 + A.m12 * B.m22,
   A.m20 * B.m00 + A.m21 * B.m10 + A.m22 * B.m20,
   A.m20 * B.m01 + A.m21 * B.m11 + A.m22 * B.m21,
   A.m20 * B.m02 + A.m21 * B.m12 + A.m22 * B.m22⟩

/-- Matrix transpose. -/
def transpose (A : Mat3) : Mat3 :=
  ⟨A.m00, A.m10, A.m20,
   A.m01, A.m11, A.m21,
   A.m02, A.m12, A.m22⟩

/-- The axis-flip diag(1, -1, -1) that converts the optical-camera
convention (Y down, Z forward) to the render convention (Y up, Z backward). -/
def cFlip : Mat3 :=
  ⟨1, 0, 0,
   0, -1, 0,
   0, 0, -1⟩

/-- Matrix-vector product. -/
def matVec (A : Mat3) (v : Point3D) : Point3D :=
  ⟨A.m00 * v.x + A.m01 * v.y + A.m02 * v.z,
   A.m10 * v.x + A.m11 * v.y + A.m12 * v.z,
   A.m20 * v.x + A.m21 * v.y + A.m22 * v.z⟩

/-- Two-argument arctangent, the real model of Math.atan2: the argument
of the complex number x + y i, in (-pi, pi]. -/
def atan2 (y x : ℝ) : ℝ := Complex.arg (x + y * Complex.I)

-- ============================================================
-- Constants (from constants.ts)
-- ============================================================

/-- Cube edge length in meters. -/
def CUBE_SIZE : ℝ := 0.12

/-- Marker edge length in meters. -/
def MARKER_SIZE : ℝ := 0.09

/-- Half of cube edge length. -/
def HALF_CUBE : ℝ := CUBE_SIZE / 2

/-- Half marker size for 3D object point definitions. -/
def HALF : ℝ := MARKER_SIZE / 2

/-- Marker definitions for each face of the cube. -/
def MARKER_DEFINITIONS : List MarkerDefinition :=
  [⟨0, MarkerFace.front, ⟨0, 0, 1⟩, ⟨0, 0, HALF_CUBE⟩, ⟨0, 0, 0⟩⟩,
   ⟨1, MarkerFace.top, ⟨0, 1, 0⟩, ⟨0, HALF_CUBE, 0⟩, ⟨-(π / 2), 0, 0⟩⟩,
   ⟨2, MarkerFace.right, ⟨1, 0, 0⟩, ⟨HALF_CUBE, 0, 0⟩, ⟨0, -(π / 2), 0⟩⟩,
   ⟨3, MarkerFace.back, ⟨0, 0, -1⟩, ⟨0, 0, -HALF_CUBE⟩, ⟨0, π, 0⟩⟩,
   ⟨4, MarkerFace.left, ⟨-1, 0, 0⟩, ⟨-HALF_CUBE, 0, 0⟩, ⟨0, π / 2, 0⟩⟩]

/-- Camera intrinsics record. -/
structure CameraIntrinsics where
  fx : ℝ
  fy : ℝ
  cx : ℝ
  cy : ℝ

/-- Default camera intrinsic values (for 640x480 resolution). -/
def DEFAULT_CAMERA_INTRINSICS : CameraIntrinsics := ⟨600, 600, 320, 240⟩

/-- Default distortion coefficients (no distortion). -/
def DEFAULT_DIST_COEFFS : List ℝ := [0, 0, 0, 0, 0]

/-- 3x3 intrinsic matrix assembled from the intrinsics record. -/
def cameraMatrixOf (k : CameraIntrinsics) : Mat3 :=
  ⟨k.fx, 0, k.cx,
   0, k.fy, k.cy,
   0, 0, 1⟩

-- ============================================================
-- Coordinate transform helpers (from the pose module)
-- ============================================================

/-- Transform a point from marker-local coordinates to world coordinates:
sequential single-axis rotations X, then Y, then Z, then translation. -/
def markerToWorld (point : Point3D) (markerCenter : Point3D) (rot : EulerAngles) : Point3D :=
  let cx := cos rot.x
  let sx := sin rot.x
  let cy := cos rot.y
  let sy := sin rot.y
  let cz := cos rot.z
  let sz := sin rot.z
  let y1 := cx * point.y - sx * point.z
  let z1 := sx * point.y + cx * point.z
  let x2 := cy * point.x + sy * z1
  let z2 := -sy * point.x + cy * z1
  let x3 := cz * x2 - sz * y1
  let y3 := sz * x2 + cz * y1
  ⟨x3 + markerCenter.x, y3 + markerCenter.y, z2 + markerCenter.z⟩

/-- Extract Euler angles (degrees) from a 3x3 rotation matrix,
convention R = Rz * Ry * Rx, with gimbal-lock handling. -/
def rotationMatrixToEuler (R : Mat3) : EulerAngles :=
  let sy := sqrt (R.m00 * R.m00 + R.m10 * R.m10)
  if sy < 1e-6 then
    let x := atan2 (-R.m12) R.m11
    let y := atan2 (-R.m20) sy
    let z := (0 : ℝ)
    ⟨x * (180 / π), y * (180 / π), z * (180 / π)⟩
  else
    let x := atan2 R.m21 R.m22
    let y := atan2 (-R.m20) sy
    let z := atan2 R.m10 R.m00
    ⟨x * (180 / π), y * (180 / π), z * (180 / π)⟩

/-- Row-major Rz * Ry * Rx built from radian Euler angles (the matrix
assembled inside cameraRotationInWorld, step 2). -/
def eulerToMatrix (rot : EulerAngles) : Mat3 :=
  let cx := cos rot.x
  let sx := sin rot.x
  let cy := cos rot.y
  let sy := sin rot.y
  let cz := cos rot.z
  let sz := sin rot.z
  ⟨cz * cy, cz * sy * sx - sz * cx, cz * sy * cx + sz * sx,
   sz * cy, sz * sy * sx + cz * cx, sz * sy * cx - cz * sx,
   -sy, cy * sx, cy * cx⟩

/-- Step 1 of cameraRotationInWorld: RtC with
RtC[i][0] = R[0][i], RtC[i][1] = -R[1][i], RtC[i][2] = -R[2][i]. -/
def rtCOf (R : Mat3) : Mat3 :=
  ⟨R.m00, -R.m10, -R.m20,
   R.m01, -R.m11, -R.m21,
   R.m02, -R.m12, -R.m22⟩

/-- Render-convention camera rotation in world frame:
(Rz * Ry * Rx from the marker rotation) * (R transposed with Y/Z columns flipped). -/
def cameraRotationInWorld (R : Mat3) (markerRot : EulerAngles) : Mat3 :=
  matMul (eulerToMatrix markerRot) (rtCOf R)

-- ============================================================
-- Single-marker pose estimation
-- ============================================================

/-- 3D object points: marker corners in the marker-local frame,
order top-left, top-right, bottom-right, bottom-left, Z = 0 plane. -/
def objectPoints : List Point3D :=
  [⟨-HALF, HALF, 0⟩, ⟨HALF, HALF, 0⟩, ⟨HALF, -HALF, 0⟩, ⟨-HALF, -HALF, 0⟩]

/-- 2D image points from the detected corners, in detector order. -/
def imagePointsOf (marker : MarkerDetection) : List Point2D :=
  [marker.corners.1, marker.corners.2.1, marker.corners.2.2.1, marker.corners.2.2.2]

/-- Abstract interface of the external PnP solver: object points, image
points, intrinsic matrix and distortion coefficients to an optional
(rvec, tvec) pair; none models reported failure. -/
def PnPSolver :=
  List Point3D → List Point2D → Mat3 → List ℝ → Option (Vec3 × Vec3)

/-- Estimate the camera pose from a single detected marker.  Returns none
when the marker id has no definition or the PnP solver reports failure. -/
def estimateSingleMarkerPose (solve : PnPSolver) (rodrigues : Vec3 → Mat3)
    (defs : List MarkerDefinition) (marker : MarkerDetection) : Option PoseEstimation :=
  match defs.find? (fun m => m.id == marker.id) with
  | none => none
  | some d =>
    match solve objectPoints (imagePointsOf marker)
        (cameraMatrixOf DEFAULT_CAMERA_INTRINSICS) DEFAULT_DIST_COEFFS with
    | none => none
    | some (rv, tv) =>
      let R := rodrigues rv
      let camInMarker : Point3D :=
        ⟨-(R.m00 * tv.1 + R.m10 * tv.2.1 + R.m20 * tv.2.2),
         -(R.m01 * tv.1 + R.m11 * tv.2.1 + R.m21 * tv.2.2),
         -(R.m02 * tv.1 + R.m12 * tv.2.1 + R.m22 * tv.2.2)⟩
      let worldPos := markerToWorld camInMarker d.center d.rotationToWorld
      let worldRotMat := cameraRotationInWorld R d.rotationToWorld
      let worldRot := rotationMatrixToEuler worldRotMat
      some ⟨worldPos, worldRot, rv, tv, marker.id⟩

-- ============================================================
-- Pose fusion
-- ============================================================

/-- Fuse multiple single-marker pose estimations into one PoseResult by
averaging positions and rotations; the clock reading is an explicit input. -/
def fusePoses (poses : List PoseEstimation) (now : ℝ) : PoseResult :=
  if poses.length = 0 then
    ⟨[], ⟨0, 0, 0⟩, ⟨0, 0, 0⟩, [], now⟩
  else
    ⟨poses,
     ⟨(poses.foldl (fun s p => s + p.position.x) 0) / (poses.length : ℝ),
      (poses.foldl (fun s p => s + p.position.y) 0) / (poses.length : ℝ),
      (poses.foldl (fun s p => s + p.position.z) 0) / (poses.length : ℝ)⟩,
     ⟨(poses.foldl (fun s p => s + p.rotation.x) 0) / (poses.length : ℝ),
      (poses.foldl (fun s p => s + p.rotation.y) 0) / (poses.length : ℝ),
      (poses.foldl (fun s p => s + p.rotation.z) 0) / (poses.length : ℝ)⟩,
     poses.map (fun p => p.markerId),
     now⟩

-- ============================================================
-- Helper lemmas
-- ============================================================

theorem foldl_add_eq_sum (f : PoseEstimation → ℝ) :
    ∀ (l : List PoseEstimation) (a : ℝ),
      l.foldl (fun s p => s + f p) a = a + (l.map f).sum := by
  intro l
  induction l with
  | nil => intro a; simp
  | cons p t ih =>
    intro a
    simp [List.foldl_cons, ih, add_assoc]

theorem rtCOf_eq_transpose_mul_cFlip (R : Mat3) :
    rtCOf R = matMul (transpose R) cFlip := by
  ext <;> simp [rtCOf, matMul, transpose, cFlip]

theorem atan2_mul_of_pos (θ r : ℝ) (hθ : θ ∈ Set.Ioc (-π) π) (hr : 0 < r) :
    atan2 (r * sin θ) (r * cos θ) = θ := by
  unfold atan2
  have h : ((r * cos θ : ℝ) : ℂ) + ((r * sin θ : ℝ) : ℂ) * Complex.I =
      (r : ℂ) * ((cos θ : ℝ) + (sin θ : ℝ) * Complex.I) := by
    push_cast
    ring
  rw [h, Complex.arg_real_mul _ hr, Complex.ofReal_cos, Complex.ofReal_sin,
    Complex.arg_cos_add_sin_mul_I hθ]

theorem atan2_sin_cos (θ : ℝ) (hθ : θ ∈ Set.Ioc (-π) π) :
    atan2 (sin θ) (cos θ) = θ := by
  have h := atan2_mul_of_pos θ 1 hθ one_pos
  simpa using h

theorem atan2_zero_one : atan2 0 1 = 0 := by
  unfold atan2
  simp [Complex.arg_one]

theorem cos_gt_of_abs_lt_89deg (y : ℝ) (hy : |y| < 89 * π / 180) :
    (1e-6 : ℝ) < cos y := by
  have hpi6 : (3.141592 : ℝ) < π := pi_gt_d6
  have hpi2 : π < 3.15 := pi_lt_d2
  have h89 : 89 * π / 180 ≤ π := by linarith
  have hmono : cos (89 * π / 180) ≤ cos |y| :=
    cos_le_cos_of_nonneg_of_le_pi (abs_nonneg y) h89 (le_of_lt hy)
  have hdiff : π / 2 - 89 * π / 180 = π / 180 := by ring
  have hsin : cos (89 * π / 180) = sin (π / 180) := by
    rw [← sin_pi_div_two_sub, hdiff]
  have hpos : (0 : ℝ) < π / 180 := by linarith
  have hle1 : π / 180 ≤ 1 := by linarith
  have hcube := sin_gt_sub_cube hpos hle1
  have ht2 : π / 180 < 0.0175 := by linarith
  have ht1 : (0.0174 : ℝ) < π / 180 := by linarith
  have ht3 : (π / 180) ^ 3 < 0.0175 ^ 3 := by
    have hnn : (0 : ℝ) ≤ π / 180 := le_of_lt hpos
    exact pow_lt_pow_left₀ ht2 hnn (by norm_num)
  have hval : (0.0175 : ℝ) ^ 3 = 5.359375e-6 := by norm_num
  have hbound : (1e-6 : ℝ) < π / 180 - (π / 180) ^ 3 / 4 := by
    rw [hval] at ht3
    linarith
  have : (1e-6 : ℝ) < sin (π / 180) := lt_trans hbound hcube
  rw [cos_abs y] at hmono
  linarith [hsin ▸ hmono]

-- ============================================================
-- Claim theorems
-- ============================================================

/-- Claim C6: fusePoses on the empty list returns the zero pose with empty
poses and marker-id lists and the current clock reading, not an error. -/
theorem fusePoses_empty (now : ℝ) :
    fusePoses [] now = ⟨[], ⟨0, 0, 0⟩, ⟨0, 0, 0⟩, [], now⟩ := by
  simp [fusePoses]

/-- Claim C8: with zero marker rotation, markerToWorld is exactly the
translation by the marker center: the output equals p + center. -/
theorem markerToWorld_zero_rot (p c : Point3D) :
    markerToWorld p c ⟨0, 0, 0⟩ = p + c := by
  ext <;> simp [markerToWorld]

/-- Claim C7: the sequential X-then-Y-then-Z rotation applied inside
markerToWorld agrees exactly with multiplying by the Rz * Ry * Rx matrix
built in cameraRotationInWorld, for every angle triple and every point. -/
theorem markerToWorld_eq_matrix (r : EulerAngles) (p c : Point3D) :
    markerToWorld p c r = matVec (eulerToMatrix r) p + c := by
  ext <;> simp [markerToWorld, eulerToMatrix, matVec] <;> ring

/-- Claim C10: for every input list, fusePoses returns the input list as
poses, a marker-id list of the same length, and pointwise the id list
holds the markerId of the corresponding pose. -/
theorem fusePoses_invariant (ps : List PoseEstimation) (now : ℝ) :
    (fusePoses ps now).poses = ps ∧
    (fusePoses ps now).detectedMarkerIds.length = (fusePoses ps now).poses.length ∧
    ∀ i : ℕ, (fusePoses ps now).detectedMarkerIds[i]? =
      ((fusePoses ps now).poses[i]?).map PoseEstimation.markerId := by
  unfold fusePoses
  by_cases h : ps.length = 0
  · have hnil : ps = [] := List.length_eq_zero.mp h
    subst hnil
    simp
  · simp [h, List.getElem?_map]

/-- Claim C9 (amended): fusePoses is deterministic given the input list and
the clock reading: all fields other than the timestamp depend only on the
input list, and the timestamp equals the clock reading passed in; two runs
with equal lists and equal clock readings return equal results. -/
theorem fusePoses_deterministic_given_clock (ps : List PoseEstimation) (t1 t2 : ℝ) :
    (fusePoses ps t1).poses = (fusePoses ps t2).poses ∧
    (fusePoses ps t1).cameraPosition = (fusePoses ps t2).cameraPosition ∧
    (fusePoses ps t1).cameraRotation = (fusePoses ps t2).cameraRotation ∧
    (fusePoses ps t1).detectedMarkerIds = (fusePoses ps t2).detectedMarkerIds ∧
    (fusePoses ps t1).timestamp = t1 := by
  unfold fusePoses
  by_cases h : ps.length = 0 <;> simp [h]

/-- Claim C9 (counterexample): two invocations of fusePoses on equal input
lists but different clock readings return different PoseResults, because
the timestamp field records the clock; so the two-run determinism claim
over every output field fails. -/
theorem fusePoses_two_run_counterexample :
    fusePoses [] 0 ≠ fusePoses [] 1 := by
  intro h
  have ht : (fusePoses ([] : List PoseEstimation) 0).timestamp =
      (fusePoses ([] : List PoseEstimation) 1).timestamp := by rw [h]
  simp [fusePoses] at ht

/-- Claim C1: for a non-empty input list, fusePoses returns the per-axis
arithmetic mean of positions and of rotations, the marker ids in input
order, and the input estimations unmodified; for a one-element list the
result reproduces that estimation's position, rotation and marker id. -/
theorem fusePoses_nonempty_mean (ps : List PoseEstimation) (now : ℝ) (h : ps ≠ []) :
    (fusePoses ps now).cameraPosition.x =
      (ps.map (fun p => p.position.x)).sum / (ps.length : ℝ) ∧
    (fusePoses ps now).cameraPosition.y =
      (ps.map (fun p => p.position.y)).sum / (ps.length : ℝ) ∧
    (fusePoses ps now).cameraPosition.z =
      (ps.map (fun p => p.position.z)).sum / (ps.length : ℝ) ∧
    (fusePoses ps now).cameraRotation.x =
      (ps.map (fun p => p.rotation.x)).sum / (ps.length : ℝ) ∧
    (fusePoses ps now).cameraRotation.y =
      (ps.map (fun p => p.rotation.y)).sum / (ps.length : ℝ) ∧
    (fusePoses ps now).cameraRotation.z =
      (ps.map (fun p => p.rotation.z)).sum / (ps.length : ℝ) ∧
    (fusePoses ps now).detectedMarkerIds = ps.map (fun p => p.markerId) ∧
    (fusePoses ps now).poses = ps ∧
    (∀ e : PoseEstimation, ps = [e] →
      (fusePoses ps now).cameraPosition = e.position ∧
      (fusePoses ps now).cameraRotation = e.rotation ∧
      (fusePoses ps now).detectedMarkerIds = [e.markerId]) := by
  have hlen : ¬ ps.length = 0 := fun hc => h (List.length_eq_zero.mp hc)
  unfold fusePoses
  rw [if_neg hlen]
  refine ⟨by simp [foldl_add_eq_sum], by simp [foldl_add_eq_sum],
    by simp [foldl_add_eq_sum], by simp [foldl_add_eq_sum],
    by simp [foldl_add_eq_sum], by simp [foldl_add_eq_sum], rfl, rfl, ?_⟩
  intro e he
  subst he
  refine ⟨?_, ?_, rfl⟩ <;> ext <;> simp

/-- Claim C2: rotationMatrixToEuler computes sy as the square root of the
sum of squares of the first column top entries; away from the singular
band it extracts atan2-based roll, pitch and yaw, in the singular band it
fixes yaw to zero exactly; all angles are scaled to degrees by 180 / pi. -/
theorem rotationMatrixToEuler_formula (R : Mat3) :
    rotationMatrixToEuler R =
      if 1e-6 ≤ sqrt (R.m00 ^ 2 + R.m10 ^ 2) then
        ⟨atan2 R.m21 R.m22 * (180 / π),
         atan2 (-R.m20) (sqrt (R.m00 ^ 2 + R.m10 ^ 2)) * (180 / π),
         atan2 R.m10 R.m00 * (180 / π)⟩
      else
        ⟨atan2 (-R.m12) R.m11 * (180 / π),
         atan2 (-R.m20) (sqrt (R.m00 ^ 2 + R.m10 ^ 2)) * (180 / π),
         0⟩ := by
  have hsq : R.m00 * R.m00 + R.m10 * R.m10 = R.m00 ^ 2 + R.m10 ^ 2 := by ring
  unfold rotationMatrixToEuler
  rw [hsq]
  by_cases hlt : sqrt (R.m00 ^ 2 + R.m10 ^ 2) < 1e-6
  · rw [if_pos hlt, if_neg (not_le.mpr hlt)]
    simp
  · rw [if_neg hlt, if_pos (not_lt.mp hlt)]

/-- Claim C5: the single-marker resolver returns none exactly when the
marker id is absent from the definition table or the PnP solver reports
failure; there is no other null-returning condition. -/
theorem estimateSingleMarkerPose_none_iff (solve : PnPSolver) (rodrigues : Vec3 → Mat3)
    (defs : List MarkerDefinition) (marker : MarkerDetection) :
    estimateSingleMarkerPose solve rodrigues defs marker = none ↔
      defs.find? (fun m => m.id == marker.id) = none ∨
      solve objectPoints (imagePointsOf marker)
        (cameraMatrixOf DEFAULT_CAMERA_INTRINSICS) DEFAULT_DIST_COEFFS = none := by
  unfold estimateSingleMarkerPose
  rcases hf : defs.find? (fun m => m.id == marker.id) with _ | d <;>
    rcases hs : solve objectPoints (imagePointsOf marker)
      (cameraMatrixOf DEFAULT_CAMERA_INTRINSICS) DEFAULT_DIST_COEFFS with _ | ⟨rv, tv⟩ <;>
    simp [hf, hs]

/-- Claim C3: on a successful lookup and PnP solve, the resolver returns a
pose whose position is pointMarkerToWorld applied to the marker-local
camera center -(R transposed) * t with the marker's center and world
rotation, and whose rotation is the Euler extraction of
(Rz * Ry * Rx) * ((R transposed) * diag(1, -1, -1)). -/
theorem estimateSingleMarkerPose_success (solve : PnPSolver) (rodrigues : Vec3 → Mat3)
    (defs : List MarkerDefinition) (marker : MarkerDetection) (d : MarkerDefinition)
    (rv tv : Vec3)
    (hfind : defs.find? (fun m => m.id == marker.id) = some d)
    (hsolve : solve objectPoints (imagePointsOf marker)
      (cameraMatrixOf DEFAULT_CAMERA_INTRINSICS) DEFAULT_DIST_COEFFS = some (rv, tv)) :
    estimateSingleMarkerPose solve rodrigues defs marker =
      some ⟨markerToWorld (-(matVec (transpose (rodrigues rv)) ⟨tv.1, tv.2.1, tv.2.2⟩))
              d.center d.rotationToWorld,
            rotationMatrixToEuler
              (matMul (eulerToMatrix d.rotationToWorld)
                (matMul (transpose (rodrigues rv)) cFlip)),
            rv, tv, marker.id⟩ := by
  have hcam :
      (⟨-((rodrigues rv).m00 * tv.1 + (rodrigues rv).m10 * tv.2.1 + (rodrigues rv).m20 * tv.2.2),
        -((rodrigues rv).m01 * tv.1 + (rodrigues rv).m11 * tv.2.1 + (rodrigues rv).m21 * tv.2.2),
        -((rodrigues rv).m02 * tv.1 + (rodrigues rv).m12 * tv.2.1 + (rodrigues rv).m22 * tv.2.2)⟩ :
        Point3D) =
      -(matVec (transpose (rodrigues rv)) ⟨tv.1, tv.2.1, tv.2.2⟩) := by
    ext <;> simp [matVec, transpose]
  have hrot : cameraRotationInWorld (rodrigues rv) d.rotationToWorld =
      matMul (eulerToMatrix d.rotationToWorld) (matMul (transpose (rodrigues rv)) cFlip) := by
    rw [cameraRotationInWorld, rtCOf_eq_transpose_mul_cFlip]
  calc estimateSingleMarkerPose solve rodrigues defs marker
      = some ⟨markerToWorld
                (⟨-((rodrigues rv).m00 * tv.1 + (rodrigues rv).m10 * tv.2.1 +
                    (rodrigues rv).m20 * tv.2.2),
                  -((rodrigues rv).m01 * tv.1 + (rodrigues rv).m11 * tv.2.1 +
                    (rodrigues rv).m21 * tv.2.2),
                  -((rodrigues rv).m02 * tv.1 + (rodrigues rv).m12 * tv.2.1 +
                    (rodrigues rv).m22 * tv.2.2)⟩ : Point3D)
                d.center d.rotationToWorld,
              rotationMatrixToEuler (cameraRotationInWorld (rodrigues rv) d.rotationToWorld),
              rv, tv, marker.id⟩ := by
        unfold estimateSingleMarkerPose
        rw [hfind, hsolve]
    _ = some ⟨markerToWorld (-(matVec (transpose (rodrigues rv)) ⟨tv.1, tv.2.1, tv.2.2⟩))
                d.center d.rotationToWorld,
              rotationMatrixToEuler
                (matMul (eulerToMatrix d.rotationToWorld)
                  (matMul (transpose (rodrigues rv)) cFlip)),
              rv, tv, marker.id⟩ := by
        rw [hcam, hrot]

/-- Marker detection stub with id 0 used to instantiate resolver claims. -/
def markerZero : MarkerDetection := ⟨0, (⟨0, 0⟩, ⟨0, 0⟩, ⟨0, 0⟩, ⟨0, 0⟩)⟩

/-- Deterministic PnP solver stub returning a fixed rvec/tvec pair. -/
def solveStub : PnPSolver := fun _ _ _ _ => some ((0, 0, 0), (0, 0, 1))

/-- Rodrigues stub returning the identity rotation matrix. -/
def rodriguesStub : Vec3 → Mat3 := fun _ => ⟨1, 0, 0, 0, 1, 0, 0, 0, 1⟩

/-- The front-face marker definition, head of MARKER_DEFINITIONS. -/
def frontDef : MarkerDefinition := ⟨0, MarkerFace.front, ⟨0, 0, 1⟩, ⟨0, 0, HALF_CUBE⟩, ⟨0, 0, 0⟩⟩

/-- Witness for claim C3 at a concrete marker, table, solver and
Rodrigues conversion. -/
theorem estimateSingleMarkerPose_success_witness :
    MARKER_DEFINITIONS.find? (fun m => m.id == markerZero.id) = some frontDef ∧
    solveStub objectPoints (imagePointsOf markerZero)
      (cameraMatrixOf DEFAULT_CAMERA_INTRINSICS) DEFAULT_DIST_COEFFS =
      some ((0, 0, 0), (0, 0, 1)) ∧
    estimateSingleMarkerPose solveStub rodriguesStub MARKER_DEFINITIONS markerZero =
      some ⟨markerToWorld (-(matVec (transpose (rodriguesStub (0, 0, 0))) ⟨0, 0, 1⟩))
              frontDef.center frontDef.rotationToWorld,
            rotationMatrixToEuler
              (matMul (eulerToMatrix frontDef.rotationToWorld)
                (matMul (transpose (rodriguesStub (0, 0, 0))) cFlip)),
            (0, 0, 0), (0, 0, 1), markerZero.id⟩ :=
  ⟨rfl, rfl, estimateSingleMarkerPose_success solveStub rodriguesStub MARKER_DEFINITIONS
    markerZero frontDef (0, 0, 0) (0, 0, 1) rfl rfl⟩

/-- Pose estimation stub used to instantiate fusion claims. -/
def e0 : PoseEstimation := ⟨⟨1, 2, 3⟩, ⟨4, 5, 6⟩, (0, 0, 0), (0, 0, 0), 7⟩

/-- Witness for claim C1 on the one-element list [e0]. -/
theorem fusePoses_nonempty_mean_witness :
    ([e0] : List PoseEstimation) ≠ [] ∧
    ((fusePoses [e0] 0).cameraPosition.x =
      (([e0] : List PoseEstimation).map (fun p => p.position.x)).sum /
        (([e0] : List PoseEstimation).length : ℝ) ∧
     (fusePoses [e0] 0).cameraPosition.y =
      (([e0] : List PoseEstimation).map (fun p => p.position.y)).sum /
        (([e0] : List PoseEstimation).length : ℝ) ∧
     (fusePoses [e0] 0).cameraPosition.z =
      (([e0] : List PoseEstimation).map (fun p => p.position.z)).sum /
        (([e0] : List PoseEstimation).length : ℝ) ∧
     (fusePoses [e0] 0).cameraRotation.x =
      (([e0] : List PoseEstimation).map (fun p => p.rotation.x)).sum /
        (([e0] : List PoseEstimation).length : ℝ) ∧
     (fusePoses [e0] 0).cameraRotation.y =
      (([e0] : List PoseEstimation).map (fun p => p.rotation.y)).sum /
        (([e0] : List PoseEstimation).length : ℝ) ∧
     (fusePoses [e0] 0).cameraRotation.z =
      (([e0] : List PoseEstimation).map (fun p => p.rotation.z)).sum /
        (([e0] : List PoseEstimation).length : ℝ) ∧
     (fusePoses [e0] 0).detectedMarkerIds =
      ([e0] : List PoseEstimation).map (fun p => p.markerId) ∧
     (fusePoses [e0] 0).poses = [e0] ∧
     (∀ e : PoseEstimation, ([e0] : List PoseEstimation) = [e] →
      (fusePoses [e0] 0).cameraPosition = e.position ∧
      (fusePoses [e0] 0).cameraRotation = e.rotation ∧
      (fusePoses [e0] 0).detectedMarkerIds = [e.markerId])) :=
  ⟨List.cons_ne_nil e0 [], fusePoses_nonempty_mean [e0] 0 (List.cons_ne_nil e0 [])⟩

/-- Claim C4 (amended): for Euler angles with roll and yaw in the
principal range (-pi, pi] and pitch strictly inside the 89-degree band,
matrixToEuler applied to the Rz * Ry * Rx matrix of eulerToMatrix
recovers the angles exactly, expressed in degrees. -/
theorem rotationMatrixToEuler_eulerToMatrix (x y z : ℝ)
    (hx : x ∈ Set.Ioc (-π) π) (hz : z ∈ Set.Ioc (-π) π)
    (hy : |y| < 89 * π / 180) :
    rotationMatrixToEuler (eulerToMatrix ⟨x, y, z⟩) =
      ⟨x * (180 / π), y * (180 / π), z * (180 / π)⟩ := by
  have hcy6 : (1e-6 : ℝ) < cos y := cos_gt_of_abs_lt_89deg y hy
  have hcy : (0 : ℝ) < cos y := lt_trans (by norm_num) hcy6
  have hyabs := abs_lt.mp hy
  have hpi89 : 89 * π / 180 < π := by linarith [pi_pos]
  have hyIoc : y ∈ Set.Ioc (-π) π :=
    Set.mem_Ioc.mpr ⟨by linarith [hyabs.1], by linarith [hyabs.2]⟩
  have hE : eulerToMatrix ⟨x, y, z⟩ =
      ⟨cos z * cos y, cos z * sin y * sin x - sin z * cos x,
       cos z * sin y * cos x + sin z * sin x,
       sin z * cos y, sin z * sin y * sin x + cos z * cos x,
       sin z * sin y * cos x - cos z * sin x,
       -sin y, cos y * sin x, cos y * cos x⟩ := rfl
  rw [hE]
  have hsum : cos z * cos y * (cos z * cos y) + sin z * cos y * (sin z * cos y) =
      cos y ^ 2 := by
    have hz2 := sin_sq_add_cos_sq z
    linear_combination cos y ^ 2 * hz2
  have hsqrt : sqrt (cos z * cos y * (cos z * cos y) + sin z * cos y * (sin z * cos y)) =
      cos y := by
    rw [hsum, sqrt_sq hcy.le]
  have ex : atan2 (cos y * sin x) (cos y * cos x) = x := atan2_mul_of_pos x (cos y) hx hcy
  have ey : atan2 (-(-sin y)) (cos y) = y := by
    rw [neg_neg]
    exact atan2_sin_cos y hyIoc
  have ez : atan2 (sin z * cos y) (cos z * cos y) = z := by
    rw [mul_comm (sin z) (cos y), mul_comm (cos z) (cos y)]
    exact atan2_mul_of_pos z (cos y) hz hcy
  simp only [rotationMatrixToEuler, hsqrt]
  rw [if_neg (not_lt.mpr (le_of_lt hcy6))]
  rw [ex, ey, ez]

/-- Witness for the amended claim C4 at the zero angle triple. -/
theorem rotationMatrixToEuler_eulerToMatrix_witness :
    ((0 : ℝ) ∈ Set.Ioc (-π) π) ∧ |(0 : ℝ)| < 89 * π / 180 ∧
    rotationMatrixToEuler (eulerToMatrix ⟨0, 0, 0⟩) =
      ⟨0 * (180 / π), 0 * (180 / π), 0 * (180 / π)⟩ := by
  have h0 : (0 : ℝ) ∈ Set.Ioc (-π) π :=
    Set.mem_Ioc.mpr ⟨neg_lt_zero.mpr pi_pos, le_of_lt pi_pos⟩
  have habs : |(0 : ℝ)| < 89 * π / 180 := by
    rw [abs_zero]
    positivity
  exact ⟨h0, habs, rotationMatrixToEuler_eulerToMatrix 0 0 0 h0 h0 habs⟩

/-- Claim C4 (counterexample): the angle triple (2 pi, 0, 0) has pitch 0,
inside the claimed band, yet the round trip returns the zero triple while
the input's roll is 360 degrees, so the round-trip law as stated fails. -/
theorem eulerRoundTrip_counterexample :
    |(0 : ℝ)| < 89 * π / 180 ∧
    rotationMatrixToEuler (eulerToMatrix ⟨2 * π, 0, 0⟩) = ⟨0, 0, 0⟩ ∧
    2 * π * (180 / π) = 360 := by
  refine ⟨?_, ?_, ?_⟩
  · rw [abs_zero]
    positivity
  · have hE : eulerToMatrix ⟨2 * π, 0, 0⟩ = ⟨1, 0, 0, 0, 1, 0, 0, 0, 1⟩ := by
      ext <;> simp [eulerToMatrix, cos_two_pi, sin_two_pi]
    rw [hE]
    simp only [rotationMatrixToEuler]
    norm_num [sqrt_one, atan2_zero_one]
  · field_simp
    ring
